import Mathlib

/-!
# StormCloud REST API (`scripts/routes/api.js`)

A shallow embedding of the route handlers of `scripts/routes/api.js`.

* The handlers are translated from the source, one definition per route.
* `scripts/database.js` and `scripts/tools/authHelper.js` are required by the
  source but are not part of it.  The document store is modelled from the
  specification (a key-filtered document database); the environment resolver,
  the authorizer, the clock and the JavaScript built-ins `toUpperCase` and
  `JSON.stringify` are fields of the context `Ctx`, so every theorem holds for
  all of them.
* JavaScript `undefined` is `none`; a body field that a handler only stores is
  an `Option`, a body field that is used as a store key is a plain value.
-/

set_option autoImplicit false

namespace StormCloud

/-! ## Data model -/

/-- Record identifiers (`_id`), assigned by the store. -/
abbrev Id := Nat

/-- Environment record returned by `authTools.getEnvironment`. -/
structure Environment where
  friendlyId : String
  settings : List (String × String)
  masterPasswordHash : String
  deriving DecidableEq, Repr

/-- Match record of the `"Match"` collection. -/
structure Match where
  _id : Id
  environment : String
  competition : Option String
  matchNumber : Option Int
  teams : Option (List Int)
  locked : Option Bool
  documents : List Id
  date : Option String
  deriving DecidableEq, Repr

/-- Document record of the `"Document"` collection. -/
structure Document where
  _id : Id
  environment : String
  dataType : String
  json : Option String
  image : Option String
  datetime : Nat
  deriving DecidableEq, Repr

/-- Schema record of the `"Schema"` collection. -/
structure Schema where
  _id : Id
  Name : String
  Parts : Option String
  Updated : Nat
  deriving DecidableEq, Repr

/-- Modelled from the spec: the state of the document store behind
`scripts/database.js` (absent from the sources); one list per collection in
insertion order, and the next identifier the store hands out. -/
structure Store where
  matchColl : List Match
  documentColl : List Document
  schemaColl : List Schema
  nextId : Id
  deriving DecidableEq, Repr

/-- One parsed element of the `documents` array of `POST /submit/data`. -/
structure DataPiece where
  Number : Int
  Created : Nat
  payload : String
  deriving DecidableEq, Repr

/-- The collaborators of a request that the handlers do not define: the resolved
environment (`authTools.getEnvironment(environment)`), the authorizer
(`authTools.authorize`), the built-ins `String.prototype.toUpperCase` and
`JSON.stringify`, the clock (`new Date()`), and whether the store's
`updateDoc`/`deleteDoc` act on every matching record or on the first one. -/
structure Ctx where
  env : Environment
  authorize : Option String → String → Environment → Bool
  toUpperCase : String → String
  stringify : DataPiece → String
  now : Nat
  multi : Bool

/-- The parts of an HTTP request the handlers read: the `token` cookie and the
body fields. -/
structure Request where
  token : Option String
  matchId : Id
  docId : Id
  competition : Option String
  matchNumber : Option Int
  teams : Option (List Int)
  locked : Option Bool
  date : Option String
  dataType : Option String
  json : Option String
  image : Option String
  name : String
  data : Option String
  documents : List DataPiece
  deriving DecidableEq, Repr

/-- Entry of the `matches` array answered by `GET /matches*`. -/
structure MatchData where
  environment : String
  competition : Option String
  matchNumber : Option Int
  teams : Option (List Int)
  locked : Option Bool
  documents : List Document
  _id : Id
  deriving DecidableEq, Repr

/-- HTTP response: status code and the fields of the JSON body
(`sendBackMatches` is the value of the key `matches`). -/
structure Response where
  status : Nat
  message : Option String
  sendBackMatches : Option (List MatchData)
  unassignedDocuments : Option (List Document)
  document : Option Document
  deriving DecidableEq, Repr

/-- The response `res.status(code).json({message: msg})`. -/
def Response.msg (code : Nat) (msg : String) : Response :=
  { status := code, message := some msg, sendBackMatches := none,
    unassignedDocuments := none, document := none }

/-! ## Document store -/

/-- Modelled from the spec: `db.getDocs(collection, filter)` of the absent
`scripts/database.js`; the records of the collection that satisfy the filter,
in store order. -/
def getDocs {α : Type} (coll : List α) (filter : α → Bool) : List α :=
  coll.filter filter

/-- Patch the first record that satisfies the filter. -/
def updateFirst {α : Type} (filter : α → Bool) (patch : α → α) : List α → List α
  | [] => []
  | x :: xs => if filter x then patch x :: xs else x :: updateFirst filter patch xs

/-- Remove the first record that satisfies the filter. -/
def deleteFirst {α : Type} (filter : α → Bool) : List α → List α
  | [] => []
  | x :: xs => if filter x then xs else x :: deleteFirst filter xs

/-- Modelled from the spec: `db.updateDoc(collection, filter, patch)` of the
absent `scripts/database.js`; the patch is applied to the records that satisfy
the filter (all of them when `multi`, else the first one), every other record
and the order are kept. -/
def updateDoc {α : Type} (multi : Bool) (coll : List α) (filter : α → Bool)
    (patch : α → α) : List α :=
  if multi then coll.map (fun x => if filter x then patch x else x)
  else updateFirst filter patch coll

/-- Modelled from the spec: `db.deleteDoc(collection, filter)` of the absent
`scripts/database.js`; the records that satisfy the filter are removed (all of
them when `multi`, else the first one). -/
def deleteDoc {α : Type} (multi : Bool) (coll : List α) (filter : α → Bool) : List α :=
  if multi then coll.filter (fun x => !filter x) else deleteFirst filter coll

/-- Modelled from the spec: `db.createDoc("Match", doc)` of the absent
`scripts/database.js`; the record is stored at the end of the collection under
the next identifier, and returned. -/
def createMatch (s : Store) (doc : Id → Match) : Match × Store :=
  (doc s.nextId, { s with matchColl := s.matchColl ++ [doc s.nextId], nextId := s.nextId + 1 })

/-- Modelled from the spec: `db.createDoc("Document", doc)` of the absent
`scripts/database.js`. -/
def createDocument (s : Store) (doc : Id → Document) : Document × Store :=
  (doc s.nextId, { s with documentColl := s.documentColl ++ [doc s.nextId], nextId := s.nextId + 1 })

/-- Modelled from the spec: `db.createDoc("Schema", doc)` of the absent
`scripts/database.js`. -/
def createSchema (s : Store) (doc : Id → Schema) : Schema × Store :=
  (doc s.nextId, { s with schemaColl := s.schemaColl ++ [doc s.nextId], nextId := s.nextId + 1 })

/-! ## Route handlers -/

/-- The inner `documents.forEach` of `GET /matches*` (lines 53-58) for one match
whose `documents` list is `refs`.  `Array.prototype.forEach` reads the length
once (`n` indices remain, the next one is `k`) and skips an index that is no
longer present; the callback pushes a referenced document to
`matchData.documents` (`acc`) and splices it out of `documents` (`docs`), the
array that is being iterated.  `documents.indexOf(doc)` is `k`, the index of the
element being visited.  The result is `(matchData.documents, documents)`. -/
def assignDocuments (refs : List Id) :
    Nat → Nat → List Document → List Document → List Document × List Document
  | 0, _, docs, acc => (acc, docs)
  | n + 1, k, docs, acc =>
    match docs.get? k with
    | none => assignDocuments refs n (k + 1) docs acc
    | some doc =>
      if refs.contains doc._id then
        assignDocuments refs n (k + 1) (docs.eraseIdx k) (acc ++ [doc])
      else
        assignDocuments refs n (k + 1) docs acc

/-- The outer `matches.forEach` of `GET /matches*` (lines 42-60): the entries
pushed to `sendBackMatches` and the `documents` array that is left. -/
def buildMatches : List Match → List Document → List MatchData → List MatchData × List Document
  | [], docs, sendBackMatches => (sendBackMatches, docs)
  | m :: ms, docs, sendBackMatches =>
    let r := assignDocuments m.documents docs.length 0 docs []
    buildMatches ms r.2
      (sendBackMatches ++
        [{ environment := m.environment, competition := m.competition,
           matchNumber := m.matchNumber, teams := m.teams, locked := m.locked,
           documents := r.1, _id := m._id }])

/-- Handler of `GET /matches*` (lines 28-64). -/
def getMatches (c : Ctx) (req : Request) (s : Store) : Response × Store :=
  if !c.authorize req.token "READ_ALL" c.env then
    (Response.msg 401 "Unauthorized", s)
  else
    let matchDocs := getDocs s.matchColl (fun m => m.environment == c.env.friendlyId)
    let documents := getDocs s.documentColl
      (fun d => d.environment == c.env.friendlyId && d.dataType == "match")
    let r := buildMatches matchDocs documents []
    ({ status := 200, message := none, sendBackMatches := some r.1,
       unassignedDocuments := some r.2, document := none }, s)

/-- Handler of `POST /match/document` (lines 73-102). -/
def postMatchDocument (c : Ctx) (req : Request) (s : Store) : Response × Store :=
  if !c.authorize req.token "ASSOCIATE" c.env then
    (Response.msg 401 "Unauthorized", s)
  else
    let matchId := req.matchId
    match (getDocs s.matchColl
        (fun m => m._id == matchId && m.environment == c.env.friendlyId)).head? with
    | none => (Response.msg 404 "Match not found!", s)
    | some mtch =>
      let docId := req.docId
      let docs := getDocs s.documentColl
        (fun d => d._id == docId && d.environment == c.env.friendlyId)
      if docs.length == 0 then
        (Response.msg 404 "Document not found!", s)
      else
        let documents := mtch.documents ++ [docId]
        (Response.msg 200 "Document added!",
          { s with matchColl := updateDoc c.multi s.matchColl (fun m => m._id == mtch._id)
                      (fun m => { m with documents := documents }) })

/-- Handler of `DELETE /match/document` (lines 111-136). -/
def deleteMatchDocument (c : Ctx) (req : Request) (s : Store) : Response × Store :=
  if !c.authorize req.token "ASSOCIATE" c.env then
    (Response.msg 401 "Unauthorized", s)
  else
    let matchId := req.matchId
    match (getDocs s.matchColl (fun m => m._id == matchId)).head? with
    | none => (Response.msg 404 "Match not found!", s)
    | some mtch =>
      let docId := req.docId
      let documents := mtch.documents.filter (fun doc => doc != docId)
      (Response.msg 200 "Document removed!",
        { s with matchColl := updateDoc c.multi s.matchColl (fun m => m._id == mtch._id)
                    (fun m => { m with documents := documents }) })

/-- Handler of `POST /match` (lines 149-179). -/
def postMatch (c : Ctx) (req : Request) (s : Store) : Response × Store :=
  if !c.authorize req.token "WRITE_ALL" c.env then
    (Response.msg 401 "Unauthorized", s)
  else
    let r := createMatch s (fun id =>
      { _id := id, environment := c.env.friendlyId, competition := req.competition,
        matchNumber := req.matchNumber, teams := req.teams, locked := req.locked,
        documents := [], date := req.date })
    (Response.msg 200 "Match created!", r.2)

/-- Handler of `DELETE /match` (lines 189-205). -/
def deleteMatch (c : Ctx) (req : Request) (s : Store) : Response × Store :=
  if !c.authorize req.token "DELETE_ALL" c.env then
    (Response.msg 401 "Unauthorized", s)
  else
    let matchId := req.matchId
    (Response.msg 200 "Match deleted!",
      { s with matchColl := deleteDoc c.multi s.matchColl (fun m => m._id == matchId) })

/-- Handler of `POST /document` (lines 216-237).  `dataType.toUpperCase()` throws
a `TypeError` when the body has no `dataType`. -/
def postDocument (c : Ctx) (req : Request) (s : Store) : Except String (Response × Store) :=
  match req.dataType with
  | none => .error "TypeError"
  | some dataType =>
    if !c.authorize req.token ("WRITE_" ++ c.toUpperCase dataType) c.env then
      .ok (Response.msg 401 "Unauthorized", s)
    else
      let r := createDocument s (fun id =>
        { _id := id, environment := c.env.friendlyId, dataType := dataType,
          json := req.json, image := req.image, datetime := c.now })
      .ok ({ status := 200, message := some "Document created!", sendBackMatches := none,
             unassignedDocuments := none, document := some r.1 }, r.2)

/-- Handler of `DELETE /document` (lines 247-261). -/
def deleteDocument (c : Ctx) (req : Request) (s : Store) : Response × Store :=
  if !c.authorize req.token "DELETE_ALL" c.env then
    (Response.msg 401 "Unauthorized", s)
  else
    let docId := req.docId
    (Response.msg 200 "Document deleted!",
      { s with documentColl := deleteDoc c.multi s.documentColl (fun d => d._id == docId) })

/-- Handler of `PUT /document` (lines 271-304).  `x == undefined` holds for a
missing field, which is `none` here. -/
def putDocument (c : Ctx) (req : Request) (s : Store) : Response × Store :=
  if !c.authorize req.token "EDIT_ALL" c.env then
    (Response.msg 401 "Unauthorized", s)
  else
    let docId := req.docId
    match (getDocs s.documentColl (fun d => d._id == docId)).head? with
    | none => (Response.msg 404 "Document not found!", s)
    | some document =>
      let image := if req.image == none then document.image else req.image
      let json := if req.json == none then document.json else req.json
      (Response.msg 200 "Document updated!",
        { s with documentColl := updateDoc c.multi s.documentColl (fun d => d._id == docId)
                    (fun d => { d with image := image, json := json, datetime := c.now }) })

/-- Handler of `POST /schema` (lines 337-351).  The `createDoc` of the last
branch is not awaited by the source; its effect on the store is included. -/
def postSchema (c : Ctx) (req : Request) (s : Store) : Response × Store :=
  let name := req.name
  let data := req.data
  let docs := getDocs s.schemaColl (fun x => x.Name == name)
  if docs.length > 0 then
    (Response.msg 200 "Schema updated!",
      { s with schemaColl := updateDoc c.multi s.schemaColl (fun x => x.Name == name)
                  (fun x => { x with Parts := data, Updated := c.now }) })
  else
    let r := createSchema s (fun id => { _id := id, Name := name, Parts := data, Updated := c.now })
    (Response.msg 200 "Schema created!", r.2)

/-- Progress of the asynchronous callback of `dataPieces.forEach` in
`POST /submit/data` (lines 444-466) for one fragment: the store call it is
suspended on, with the local variables that are live there. -/
inductive Task where
  | atGetDocs (dataPiece : DataPiece)
  | atCreateDoc (dataPiece : DataPiece) (associatedMatch : List Match)
  | atUpdateDoc (associatedMatch : List Match) (doc : Document)
  deriving DecidableEq, Repr

/-- Resume one callback of `POST /submit/data` until its next `await`: the store
call it was suspended on takes effect, and the callback either suspends on the
following one or ends (`none`). -/
def Task.step (c : Ctx) : Task → Store → Option Task × Store
  | .atGetDocs dataPiece, s =>
    (some (.atCreateDoc dataPiece
      (getDocs s.matchColl (fun m =>
        m.environment == c.env.friendlyId && m.matchNumber == some dataPiece.Number))), s)
  | .atCreateDoc dataPiece associatedMatch, s =>
    let r := createDocument s (fun id =>
      { _id := id, environment := c.env.friendlyId, dataType := "data",
        json := some (c.stringify dataPiece), image := none, datetime := dataPiece.Created })
    (some (.atUpdateDoc associatedMatch r.1), r.2)
  | .atUpdateDoc associatedMatch doc, s =>
    match associatedMatch.head? with
    | none => (none, s)
    | some m =>
      let documents := m.documents ++ [doc._id]
      (none, { s with matchColl := updateDoc c.multi s.matchColl (fun x => x._id == m._id)
                        (fun x => { x with documents := documents }) })

/-- The number of store calls a callback has left. -/
def Task.weight : Task → Nat
  | .atGetDocs _ => 3
  | .atCreateDoc _ _ => 2
  | .atUpdateDoc _ _ => 1

/-- The event loop for the callbacks of `POST /submit/data`: store calls complete
in the order they were issued, so the suspended callbacks are resumed first in,
first out; a callback that suspends again goes to the back of the queue.  The
result is the queue and the store when the fuel is used up or no callback is
left. -/
def runTasks (c : Ctx) : Nat → List Task → Store → List Task × Store
  | 0, queue, s => (queue, s)
  | _ + 1, [], s => ([], s)
  | fuel + 1, t :: queue, s =>
    match t.step c s with
    | (none, s') => runTasks c fuel queue s'
    | (some t', s') => runTasks c fuel (queue ++ [t']) s'

/-- Handler of `POST /submit/data` (lines 439-469); `req.documents` is the array
`JSON.parse(req.body.documents)`.  `forEach` starts one callback per fragment,
each runs up to its first `await`, and the response is sent; the store returned
here is the one reached once every callback has ended. -/
def postSubmitData (c : Ctx) (req : Request) (s : Store) : Response × Store :=
  let dataPieces := req.documents
  let r := runTasks c (3 * dataPieces.length) (dataPieces.map Task.atGetDocs) s
  (Response.msg 200 "Data submitted!", r.2)

/-! ## The permission-guarded routes -/

/-- The routes of the source that call `authTools.authorize`. -/
inductive Route where
  | getMatches
  | postMatchDocument
  | deleteMatchDocument
  | postMatch
  | deleteMatch
  | postDocument
  | deleteDocument
  | putDocument
  deriving DecidableEq, Repr

/-- Dispatch of a request to the handler of a guarded route. -/
def handle (c : Ctx) : Route → Request → Store → Except String (Response × Store)
  | .getMatches, req, s => .ok (getMatches c req s)
  | .postMatchDocument, req, s => .ok (postMatchDocument c req s)
  | .deleteMatchDocument, req, s => .ok (deleteMatchDocument c req s)
  | .postMatch, req, s => .ok (postMatch c req s)
  | .deleteMatch, req, s => .ok (deleteMatch c req s)
  | .postDocument, req, s => postDocument c req s
  | .deleteDocument, req, s => .ok (deleteDocument c req s)
  | .putDocument, req, s => .ok (putDocument c req s)

/-- The permission the specification (section 6, External interfaces) lists for
each guarded route; `POST /document` has one only when `dataType` is a string. -/
def requiredPermission (c : Ctx) : Route → Request → Option String
  | .getMatches, _ => some "READ_ALL"
  | .postMatchDocument, _ => some "ASSOCIATE"
  | .deleteMatchDocument, _ => some "ASSOCIATE"
  | .postMatch, _ => some "WRITE_ALL"
  | .deleteMatch, _ => some "DELETE_ALL"
  | .postDocument, req => req.dataType.map (fun d => "WRITE_" ++ c.toUpperCase d)
  | .deleteDocument, _ => some "DELETE_ALL"
  | .putDocument, _ => some "EDIT_ALL"

/-- The status of a handler result, `none` when the handler threw. -/
def statusOf : Except String (Response × Store) → Option Nat
  | .ok r => some r.1.status
  | .error _ => none

/-- The identifiers of a collection are pairwise distinct and below `next`. -/
def KeysOk (ids : List Id) (next : Id) : Prop :=
  ids.Nodup ∧ ∀ i ∈ ids, i < next

/-- Store invariant: `_id` is a key of each collection, and every identifier in
use is below the next one the store hands out. -/
def Store.WF (s : Store) : Prop :=
  KeysOk (s.matchColl.map (fun m => m._id)) s.nextId ∧
  KeysOk (s.documentColl.map (fun d => d._id)) s.nextId ∧
  KeysOk (s.schemaColl.map (fun x => x._id)) s.nextId

/-! ## Concrete contexts, requests and stores -/

/-- An environment with friendly id `"test"`. -/
def envTest : Environment :=
  { friendlyId := "test", settings := [], masterPasswordHash := "" }

/-- Upper-casing of the ASCII letters of a string. -/
def upperAscii (d : String) : String :=
  String.mk (d.data.map Char.toUpper)

/-- A context resolved to `envTest` whose authorizer grants the listed
permissions to every request that carries a token. -/
def ctxGrant (granted : List String) (multi : Bool) : Ctx :=
  { env := envTest, authorize := fun token perm _ => token.isSome && granted.contains perm,
    toUpperCase := upperAscii, stringify := fun p => p.payload, now := 100, multi := multi }

/-- A request with the given `matchId` and `docId` and no other body field. -/
def reqIds (matchId docId : Id) : Request :=
  { token := some "t", matchId := matchId, docId := docId, competition := none,
    matchNumber := none, teams := none, locked := none, date := none, dataType := none,
    json := none, image := none, name := "", data := none, documents := [] }

/-- A match of the given environment. -/
def mkMatch (id : Id) (env : String) (number : Int) (documents : List Id) : Match :=
  { _id := id, environment := env, competition := some "c", matchNumber := some number,
    teams := none, locked := some false, documents := documents, date := none }

/-- A document of the given environment and data type. -/
def mkDoc (id : Id) (env : String) (dataType : String) : Document :=
  { _id := id, environment := env, dataType := dataType, json := some "j", image := none,
    datetime := 0 }

/-- A request with the given `dataType` for `POST /document`. -/
def reqDoc (dataType : String) : Request :=
  { reqIds 0 0 with dataType := some dataType, json := some "j" }

/-- A request with the given `name` and `data` for `POST /schema`. -/
def reqSchema (name data : String) : Request :=
  { reqIds 0 0 with name := name, data := some data }

/-- A store of environment `"test"`: match 1 with the given `documents` list, and
document 2 of the given data type. -/
def storeTest (documents : List Id) (dataType : String) : Store :=
  { matchColl := [mkMatch 1 "test" 7 documents], documentColl := [mkDoc 2 "test" dataType],
    schemaColl := [], nextId := 3 }

/-- A store of environment `"test"`: match 1 references the `"match"` documents 2
and 3. -/
def storeTwoRefs : Store :=
  { matchColl := [mkMatch 1 "test" 7 [2, 3]],
    documentColl := [mkDoc 2 "test" "match", mkDoc 3 "test" "match"],
    schemaColl := [], nextId := 4 }

/-- A store of environment `"test"`: match 1 with `matchNumber` 7 and no document. -/
def storeOneMatch : Store :=
  { matchColl := [mkMatch 1 "test" 7 []], documentColl := [], schemaColl := [], nextId := 2 }

/-- A `POST /submit/data` request with two fragments whose `Number` is 7. -/
def reqTwoPieces : Request :=
  { reqIds 0 0 with
    documents := [{ Number := 7, Created := 5, payload := "a" },
                  { Number := 7, Created := 6, payload := "b" }] }

/-- A store whose records all belong to the environment `"other"`: match 1
references document 2. -/
def storeOther : Store :=
  { matchColl := [mkMatch 1 "other" 7 [2]], documentColl := [mkDoc 2 "other" "data"],
    schemaColl := [], nextId := 3 }

/-- A store with the schema `"pit"`. -/
def storeSchema : Store :=
  { matchColl := [], documentColl := [],
    schemaColl := [{ _id := 1, Name := "pit", Parts := some "old", Updated := 0 }], nextId := 2 }

/-! ## Lemmas on the store operations -/

/-- The first record answered by `getDocs` is the first record of the collection that
satisfies the filter. -/
theorem head?_getDocs {α : Type} (coll : List α) (p : α → Bool) :
    (getDocs coll p).head? = coll.find? p := by
  induction coll with
  | nil => rfl
  | cons x xs ih =>
    unfold getDocs at ih ⊢
    by_cases h : p x <;> simp [List.filter, List.find?, h, ih]

/-- Patching the first matching record keeps the number of records. -/
theorem updateFirst_length {α : Type} (p : α → Bool) (f : α → α) (xs : List α) :
    (updateFirst p f xs).length = xs.length := by
  induction xs with
  | nil => rfl
  | cons x xs ih => by_cases h : p x <;> simp [updateFirst, h, ih]

/-- The store's `updateDoc` keeps the number of records. -/
theorem updateDoc_length {α : Type} (multi : Bool) (xs : List α) (p : α → Bool) (f : α → α) :
    (updateDoc multi xs p f).length = xs.length := by
  cases multi <;> simp [updateDoc, updateFirst_length]

/-- After `updateFirst` with a patch that keeps the filter true, the first matching
record is the patched first matching record. -/
theorem find?_updateFirst {α : Type} (p : α → Bool) (f : α → α) (hf : ∀ x, p x = true → p (f x) = true)
    (xs : List α) : (updateFirst p f xs).find? p = (xs.find? p).map f := by
  induction xs with
  | nil => rfl
  | cons x xs ih =>
    by_cases h : p x
    · simp [updateFirst, h, List.find?, hf x h]
    · simp [updateFirst, h, List.find?, ih]

/-- After `updateDoc` with a patch that keeps the filter true, the first matching
record is the patched first matching record, under both readings of `updateDoc`. -/
theorem find?_updateDoc {α : Type} (multi : Bool) (p : α → Bool) (f : α → α)
    (hf : ∀ x, p x = true → p (f x) = true) (xs : List α) :
    (updateDoc multi xs p f).find? p = (xs.find? p).map f := by
  cases multi
  · simpa [updateDoc] using find?_updateFirst p f hf xs
  · simp only [updateDoc, if_true]
    induction xs with
    | nil => rfl
    | cons x xs ih =>
      by_cases h : p x
      · simp [List.find?, h, hf x h]
      · simp [List.find?, h, ih]

/-- For a filter on a key without duplicates, patching the first match is patching
every match. -/
theorem updateFirst_eq_map {α : Type} (key : α → Id) (k : Id) (f : α → α) (xs : List α)
    (hn : (xs.map key).Nodup) :
    updateFirst (fun x => key x == k) f xs = xs.map (fun x => if key x = k then f x else x) := by
  induction xs with
  | nil => rfl
  | cons x xs ih =>
    simp only [List.map_cons, List.nodup_cons] at hn
    by_cases h : key x = k
    · subst h
      simp only [updateFirst, beq_self_eq_true, if_true, List.map_cons]
      congr 1
      have : ∀ y ∈ xs, (if key y = key x then f y else y) = id y := by
        intro y hy
        have hne : key y ≠ key x := fun e => hn.1 (e ▸ List.mem_map_of_mem key hy)
        simp [hne]
      rw [List.map_congr_left this, List.map_id]
    · simp [updateFirst, h, ih hn.2]

/-- For a filter on a key without duplicates, both readings of `updateDoc` patch
the records carrying the key. -/
theorem updateDoc_eq_map {α : Type} (multi : Bool) (key : α → Id) (k : Id) (f : α → α)
    (xs : List α) (hn : (xs.map key).Nodup) :
    updateDoc multi xs (fun x => key x == k) f = xs.map (fun x => if key x = k then f x else x) := by
  cases multi
  · simpa [updateDoc] using updateFirst_eq_map key k f xs hn
  · simp [updateDoc]

/-- Two records of a collection without duplicate keys that carry the same key are
equal. -/
theorem eq_of_key_eq {α : Type} (key : α → Id) (xs : List α) (hn : (xs.map key).Nodup)
    {a b : α} (ha : a ∈ xs) (hb : b ∈ xs) (h : key a = key b) : a = b := by
  induction xs with
  | nil => cases ha
  | cons x xs ih =>
    simp only [List.map_cons, List.nodup_cons] at hn
    rcases List.mem_cons.1 ha with rfl | ha' <;> rcases List.mem_cons.1 hb with rfl | hb'
    · rfl
    · exact absurd (h ▸ List.mem_map_of_mem key hb') hn.1
    · exact absurd (h ▸ List.mem_map_of_mem key ha') hn.1
    · exact ih hn.2 ha' hb'

/-- A projection that the patch does not change is not changed by `updateDoc`. -/
theorem updateDoc_map_preserved {α β : Type} (multi : Bool) (p : α → Bool) (f : α → α)
    (g : α → β) (hg : ∀ x, g (f x) = g x) (xs : List α) :
    (updateDoc multi xs p f).map g = xs.map g := by
  cases multi
  · simp only [updateDoc, Bool.false_eq_true, if_false]
    induction xs with
    | nil => rfl
    | cons x xs ih => by_cases h : p x <;> simp [updateFirst, h, hg, ih]
  · simp only [updateDoc, if_true, List.map_map]
    apply List.map_congr_left
    intro x _
    by_cases h : p x <;> simp [h, hg]

/-- The records that do not satisfy the filter are not changed by `updateDoc`. -/
theorem filter_not_updateDoc {α : Type} (multi : Bool) (p : α → Bool) (f : α → α)
    (hf : ∀ x, p x = true → p (f x) = true) (xs : List α) :
    (updateDoc multi xs p f).filter (fun x => !p x) = xs.filter (fun x => !p x) := by
  cases multi
  · simp only [updateDoc, Bool.false_eq_true, if_false]
    induction xs with
    | nil => rfl
    | cons x xs ih => by_cases h : p x <;> simp [updateFirst, h, hf, ih]
  · simp only [updateDoc, if_true]
    induction xs with
    | nil => rfl
    | cons x xs ih => by_cases h : p x <;> simp [h, hf, ih]

/-- Mapping a function that fixes the selected records, and keeps the selection,
does not change the selected records. -/
theorem filter_map_of_fixed {α : Type} (q : α → Bool) (f : α → α) (xs : List α)
    (h1 : ∀ x ∈ xs, q (f x) = q x) (h2 : ∀ x ∈ xs, q x = true → f x = x) :
    (xs.map f).filter q = xs.filter q := by
  induction xs with
  | nil => rfl
  | cons x xs ih =>
    have ih' := ih (fun y hy => h1 y (List.mem_cons_of_mem _ hy))
      (fun y hy => h2 y (List.mem_cons_of_mem _ hy))
    have hx1 := h1 x (List.mem_cons_self _ _)
    have hx2 := h2 x (List.mem_cons_self _ _)
    by_cases hq : q x = true
    · simp [List.filter, hx1, hq, hx2 hq, ih']
    · simp only [Bool.not_eq_true] at hq
      simp [List.filter, hx1, hq, ih']

/-- With distinct match ids, the lookup by id and environment finds the match of
that environment that carries the id. -/
theorem find?_match_unique (xs : List Match) (hn : (xs.map (fun m => m._id)).Nodup)
    (k : Id) (e : String) (m : Match)
    (hm : m ∈ xs) (hk : m._id = k) (he : m.environment = e) :
    xs.find? (fun x => x._id == k && x.environment == e) = some m := by
  cases h : xs.find? (fun x => x._id == k && x.environment == e) with
  | none =>
    rw [List.find?_eq_none] at h
    exact absurd (by simp [hk, he]) (h m hm)
  | some m' =>
    have h1 := List.find?_some h
    have h2 := List.mem_of_find?_eq_some h
    simp only [Bool.and_eq_true, beq_iff_eq] at h1
    rw [eq_of_key_eq (fun m => m._id) xs hn h2 hm (h1.1.trans hk.symm)]

/-- With distinct match ids, the lookup by id finds the match that carries the id. -/
theorem find?_id_unique (xs : List Match) (hn : (xs.map (fun m => m._id)).Nodup)
    (k : Id) (m : Match) (hm : m ∈ xs) (hk : m._id = k) :
    xs.find? (fun x => x._id == k) = some m := by
  cases h : xs.find? (fun x => x._id == k) with
  | none =>
    rw [List.find?_eq_none] at h
    exact absurd (by simp [hk]) (h m hm)
  | some m' =>
    have h1 := List.find?_some h
    have h2 := List.mem_of_find?_eq_some h
    simp only [beq_iff_eq] at h1
    rw [eq_of_key_eq (fun m => m._id) xs hn h2 hm (h1.trans hk.symm)]

/-- With distinct match ids, replacing the `documents` of the match that was read
by a list computed from it is a map over the collection. -/
theorem updateDoc_by_id (multi : Bool) (xs : List Match) (hn : (xs.map (fun m => m._id)).Nodup)
    (m : Match) (hm : m ∈ xs) (g : Match → List Id) :
    updateDoc multi xs (fun x => x._id == m._id) (fun x => { x with documents := g m }) =
      xs.map (fun x => if x._id = m._id then { x with documents := g x } else x) := by
  rw [updateDoc_eq_map multi (fun m => m._id) m._id _ xs hn]
  apply List.map_congr_left
  intro x hx
  by_cases hxk : x._id = m._id
  · have : x = m := eq_of_key_eq (fun m => m._id) xs hn hx hm hxk
    simp [this]
  · simp [hxk]

/-- Removing the first matching record leaves a sublist. -/
theorem deleteFirst_sublist {α : Type} (p : α → Bool) (xs : List α) :
    (deleteFirst p xs).Sublist xs := by
  induction xs with
  | nil => exact List.Sublist.refl _
  | cons x xs ih =>
    by_cases h : p x
    · simp [deleteFirst, h]
    · simp only [deleteFirst, h, Bool.false_eq_true, if_false]
      exact ih.cons₂ x

/-- The store's `deleteDoc` leaves a sublist of the collection. -/
theorem deleteDoc_sublist {α : Type} (multi : Bool) (xs : List α) (p : α → Bool) :
    (deleteDoc multi xs p).Sublist xs := by
  cases multi
  · simpa [deleteDoc] using deleteFirst_sublist p xs
  · simp [deleteDoc]

/-! ## The store invariant is kept by every handler -/

/-- Removing records keeps the keys in order. -/
theorem keysOk_sublist {l l' : List Id} {n : Id} (h : KeysOk l n) (hs : l'.Sublist l) :
    KeysOk l' n :=
  ⟨h.1.sublist hs, fun i hi => h.2 i (hs.subset hi)⟩

/-- Advancing the next identifier keeps the keys in order. -/
theorem keysOk_step {l : List Id} {n : Id} (h : KeysOk l n) : KeysOk l (n + 1) :=
  ⟨h.1, fun i hi => Nat.lt_succ_of_lt (h.2 i hi)⟩

/-- Storing a record under the next identifier keeps the keys in order. -/
theorem keysOk_append_fresh {l : List Id} {n : Id} (h : KeysOk l n) :
    KeysOk (l ++ [n]) (n + 1) := by
  refine ⟨?_, ?_⟩
  · rw [List.nodup_append]
    refine ⟨h.1, List.nodup_singleton n, ?_⟩
    intro a ha hb
    rw [List.mem_singleton] at hb
    have := h.2 a ha
    rw [hb] at this
    exact Nat.lt_irrefl _ this
  · intro i hi
    rcases List.mem_append.1 hi with hi | hi
    · exact Nat.lt_succ_of_lt (h.2 i hi)
    · rw [List.mem_singleton] at hi
      rw [hi]
      exact Nat.lt_succ_self n

/-- The store invariant is kept by `POST /match/document`. -/
theorem postMatchDocument_WF (c : Ctx) (req : Request) (s : Store) (h : s.WF) :
    (postMatchDocument c req s).2.WF := by
  unfold postMatchDocument
  split
  · exact h
  · dsimp only
    split
    · exact h
    · split
      · exact h
      · refine ⟨?_, h.2.1, h.2.2⟩
        simp only
        rw [updateDoc_map_preserved c.multi _ _ _ (by intro x; rfl)]
        exact h.1

/-- The store invariant is kept by `DELETE /match/document`. -/
theorem deleteMatchDocument_WF (c : Ctx) (req : Request) (s : Store) (h : s.WF) :
    (deleteMatchDocument c req s).2.WF := by
  unfold deleteMatchDocument
  split
  · exact h
  · dsimp only
    split
    · exact h
    · refine ⟨?_, h.2.1, h.2.2⟩
      simp only
      rw [updateDoc_map_preserved c.multi _ _ _ (by intro x; rfl)]
      exact h.1

/-- The store invariant is kept by `POST /match`. -/
theorem postMatch_WF (c : Ctx) (req : Request) (s : Store) (h : s.WF) :
    (postMatch c req s).2.WF := by
  unfold postMatch
  split
  · exact h
  · refine ⟨?_, keysOk_step h.2.1, keysOk_step h.2.2⟩
    simp only [createMatch, List.map_append, List.map_cons, List.map_nil]
    exact keysOk_append_fresh h.1

/-- The store invariant is kept by `DELETE /match`. -/
theorem deleteMatch_WF (c : Ctx) (req : Request) (s : Store) (h : s.WF) :
    (deleteMatch c req s).2.WF := by
  unfold deleteMatch
  split
  · exact h
  · exact ⟨keysOk_sublist h.1 ((deleteDoc_sublist _ _ _).map _), h.2.1, h.2.2⟩

/-- The store invariant is kept by `DELETE /document`. -/
theorem deleteDocument_WF (c : Ctx) (req : Request) (s : Store) (h : s.WF) :
    (deleteDocument c req s).2.WF := by
  unfold deleteDocument
  split
  · exact h
  · exact ⟨h.1, keysOk_sublist h.2.1 ((deleteDoc_sublist _ _ _).map _), h.2.2⟩

/-- The store invariant is kept by `PUT /document`. -/
theorem putDocument_WF (c : Ctx) (req : Request) (s : Store) (h : s.WF) :
    (putDocument c req s).2.WF := by
  unfold putDocument
  split
  · exact h
  · dsimp only
    split
    · exact h
    · refine ⟨h.1, ?_, h.2.2⟩
      simp only
      rw [updateDoc_map_preserved c.multi _ _ _ (by intro x; rfl)]
      exact h.2.1

/-- The store invariant is kept by `POST /document`. -/
theorem postDocument_WF (c : Ctx) (req : Request) (s : Store) (h : s.WF)
    (r : Response × Store) (hr : postDocument c req s = .ok r) : r.2.WF := by
  unfold postDocument at hr
  split at hr
  · cases hr
  · split at hr
    · cases hr; exact h
    · cases hr
      refine ⟨keysOk_step h.1, ?_, keysOk_step h.2.2⟩
      simp only [createDocument, List.map_append, List.map_cons, List.map_nil]
      exact keysOk_append_fresh h.2.1

/-- The store invariant is kept by `POST /schema`. -/
theorem postSchema_WF (c : Ctx) (req : Request) (s : Store) (h : s.WF) :
    (postSchema c req s).2.WF := by
  unfold postSchema
  simp only
  split
  · refine ⟨h.1, h.2.1, ?_⟩
    simp only
    rw [updateDoc_map_preserved c.multi _ _ _ (by intro x; rfl)]
    exact h.2.2
  · refine ⟨keysOk_step h.1, keysOk_step h.2.1, ?_⟩
    simp only [createSchema, List.map_append, List.map_cons, List.map_nil]
    exact keysOk_append_fresh h.2.2

/-- The store invariant is kept by every step of a `POST /submit/data` callback. -/
theorem task_step_WF (c : Ctx) (t : Task) (s : Store) (h : s.WF) : (t.step c s).2.WF := by
  cases t with
  | atGetDocs p => exact h
  | atCreateDoc p am =>
    refine ⟨keysOk_step h.1, ?_, keysOk_step h.2.2⟩
    simp only [Task.step, createDocument, List.map_append, List.map_cons, List.map_nil]
    exact keysOk_append_fresh h.2.1
  | atUpdateDoc am doc =>
    simp only [Task.step]
    split
    · exact h
    · refine ⟨?_, h.2.1, h.2.2⟩
      simp only
      rw [updateDoc_map_preserved c.multi _ _ _ (by intro x; rfl)]
      exact h.1

/-- The store invariant is kept by the event loop of `POST /submit/data`. -/
theorem runTasks_WF (c : Ctx) (fuel : Nat) (queue : List Task) (s : Store) (h : s.WF) :
    (runTasks c fuel queue s).2.WF := by
  induction fuel generalizing queue s with
  | zero => exact h
  | succ fuel ih =>
    cases queue with
    | nil => exact h
    | cons t q =>
      unfold runTasks
      have hs := task_step_WF c t s h
      rcases hstep : t.step c s with ⟨o, s'⟩
      rw [hstep] at hs
      cases o with
      | none => exact ih q s' hs
      | some t' => exact ih _ s' hs

/-- The store invariant is kept by `POST /submit/data`. -/
theorem postSubmitData_WF (c : Ctx) (req : Request) (s : Store) (h : s.WF) :
    (postSubmitData c req s).2.WF :=
  runTasks_WF c _ _ s h

/-! ## Lemmas on the handlers -/

/-- An authorized `POST /match/document` whose Match and Document exist in the
resolved environment, match ids being distinct: the answer and the store. -/
theorem postMatchDocument_found (c : Ctx) (req : Request) (s : Store)
    (hauth : c.authorize req.token "ASSOCIATE" c.env = true)
    (hn : (s.matchColl.map (fun m => m._id)).Nodup)
    (hm : ∃ m ∈ s.matchColl, m._id = req.matchId ∧ m.environment = c.env.friendlyId)
    (hd : ∃ d ∈ s.documentColl, d._id = req.docId ∧ d.environment = c.env.friendlyId) :
    postMatchDocument c req s = (Response.msg 200 "Document added!",
      { s with matchColl := s.matchColl.map (fun x =>
          if x._id = req.matchId then { x with documents := x.documents ++ [req.docId] }
          else x) }) := by
  obtain ⟨m, hm, hk, he⟩ := hm
  obtain ⟨d, hd, hdk, hde⟩ := hd
  have hfind := find?_match_unique s.matchColl hn req.matchId c.env.friendlyId m hm hk he
  have hdocs : (getDocs s.documentColl
      (fun d => d._id == req.docId && d.environment == c.env.friendlyId)).length ≠ 0 := by
    unfold getDocs
    intro h0
    have := List.length_eq_zero.1 h0
    rw [List.filter_eq_nil_iff] at this
    exact this d hd (by simp [hdk, hde])
  simp only [postMatchDocument, hauth, head?_getDocs, hfind]
  simp only [Bool.not_true, Bool.false_eq_true, if_false, beq_iff_eq, hdocs]
  rw [updateDoc_by_id c.multi s.matchColl hn m hm (fun x => x.documents ++ [req.docId]), hk]

/-- An authorized `POST /match/document` whose Match or Document is missing from
the resolved environment answers 404 and leaves the store unchanged. -/
theorem postMatchDocument_not_found (c : Ctx) (req : Request) (s : Store)
    (hauth : c.authorize req.token "ASSOCIATE" c.env = true)
    (hnot : ¬ ((∃ m ∈ s.matchColl, m._id = req.matchId ∧ m.environment = c.env.friendlyId) ∧
        (∃ d ∈ s.documentColl, d._id = req.docId ∧ d.environment = c.env.friendlyId))) :
    (postMatchDocument c req s).1.status = 404 ∧ (postMatchDocument c req s).2 = s := by
  simp only [postMatchDocument, hauth, head?_getDocs]
  cases hm : s.matchColl.find?
      (fun m => m._id == req.matchId && m.environment == c.env.friendlyId) with
  | none => simp [Response.msg]
  | some m =>
    have hmem := List.mem_of_find?_eq_some hm
    have hp := List.find?_some hm
    simp only [Bool.and_eq_true, beq_iff_eq] at hp
    have hdocs : getDocs s.documentColl
        (fun d => d._id == req.docId && d.environment == c.env.friendlyId) = [] := by
      unfold getDocs
      rw [List.filter_eq_nil_iff]
      intro d hd hpd
      simp only [Bool.and_eq_true, beq_iff_eq] at hpd
      exact hnot ⟨⟨m, hmem, hp⟩, ⟨d, hd, hpd⟩⟩
    simp [hdocs, Response.msg]

/-- An authorized `DELETE /match/document` whose Match exists, match ids being
distinct: the answer and the store. -/
theorem deleteMatchDocument_found (c : Ctx) (req : Request) (s : Store)
    (hauth : c.authorize req.token "ASSOCIATE" c.env = true)
    (hn : (s.matchColl.map (fun m => m._id)).Nodup)
    (hm : ∃ m ∈ s.matchColl, m._id = req.matchId) :
    deleteMatchDocument c req s = (Response.msg 200 "Document removed!",
      { s with matchColl := s.matchColl.map (fun x =>
          if x._id = req.matchId then
            { x with documents := x.documents.filter (fun doc => doc != req.docId) }
          else x) }) := by
  obtain ⟨m, hm, hk⟩ := hm
  have hfind := find?_id_unique s.matchColl hn req.matchId m hm hk
  simp only [deleteMatchDocument, hauth, head?_getDocs, hfind]
  simp only [Bool.not_true, Bool.false_eq_true, if_false]
  rw [updateDoc_by_id c.multi s.matchColl hn m hm
    (fun x => x.documents.filter (fun doc => doc != req.docId)), hk]

/-- The route `POST /match/document` leaves the Matches and Documents of other
environments unchanged, match ids being distinct. -/
theorem postMatchDocument_other_environment (c : Ctx) (req : Request) (s : Store)
    (hn : (s.matchColl.map (fun m => m._id)).Nodup) :
    (postMatchDocument c req s).2.matchColl.filter
        (fun m => m.environment != c.env.friendlyId) =
      s.matchColl.filter (fun m => m.environment != c.env.friendlyId) ∧
    (postMatchDocument c req s).2.documentColl = s.documentColl := by
  cases hauth : c.authorize req.token "ASSOCIATE" c.env with
  | false => simp [postMatchDocument, hauth]
  | true =>
    by_cases hboth : (∃ m ∈ s.matchColl, m._id = req.matchId ∧ m.environment = c.env.friendlyId) ∧
        (∃ d ∈ s.documentColl, d._id = req.docId ∧ d.environment = c.env.friendlyId)
    · rw [postMatchDocument_found c req s hauth hn hboth.1 hboth.2]
      refine ⟨?_, rfl⟩
      obtain ⟨⟨m, hm, hk, he⟩, _⟩ := hboth
      apply filter_map_of_fixed
      · intro x _
        by_cases hx : x._id = req.matchId <;> simp [hx]
      · intro x hx hq
        by_cases hxk : x._id = req.matchId
        · have : x = m := eq_of_key_eq (fun m => m._id) s.matchColl hn hx hm (hxk.trans hk.symm)
          subst this
          simp [he] at hq
        · simp [hxk]
    · rw [(postMatchDocument_not_found c req s hauth hboth).2]
      exact ⟨rfl, rfl⟩

/-- The inner loop of `GET /matches*` assigns nothing to a match that references no
document and leaves the fetched documents as they are. -/
theorem assignDocuments_nil (n k : Nat) (docs acc : List Document) :
    assignDocuments [] n k docs acc = (acc, docs) := by
  induction n generalizing k with
  | zero => rfl
  | succ n ih =>
    unfold assignDocuments
    cases docs.get? k <;> simp [ih]

/-- The entries already pushed to `sendBackMatches` stay in it. -/
theorem buildMatches_acc_subset (ms : List Match) (docs : List Document)
    (acc : List MatchData) (e : MatchData) (he : e ∈ acc) :
    e ∈ (buildMatches ms docs acc).1 := by
  induction ms generalizing docs acc with
  | nil => exact he
  | cons m ms ih =>
    unfold buildMatches
    exact ih _ _ (List.mem_append_left _ he)

/-- A match without documents is answered by `GET /matches*` with `documents = []`. -/
theorem buildMatches_mem_of_no_documents (ms : List Match) (docs : List Document)
    (acc : List MatchData) (m : Match) (hm : m ∈ ms) (hdocs : m.documents = []) :
    ({ environment := m.environment, competition := m.competition,
       matchNumber := m.matchNumber, teams := m.teams, locked := m.locked,
       documents := [], _id := m._id } : MatchData) ∈ (buildMatches ms docs acc).1 := by
  induction ms generalizing docs acc with
  | nil => cases hm
  | cons x xs ih =>
    unfold buildMatches
    rcases List.mem_cons.1 hm with rfl | hm'
    · apply buildMatches_acc_subset
      simp [hdocs, assignDocuments_nil]
    · exact ih _ _ hm'

/-- A callback that has not ended has a store call left. -/
theorem task_weight_pos (t : Task) : 0 < t.weight := by
  cases t <;> simp [Task.weight]

/-- A step that suspends the callback again leaves one store call fewer. -/
theorem task_step_weight (c : Ctx) (t : Task) (s : Store) :
    (∀ t', (t.step c s).1 = some t' → t'.weight + 1 = t.weight) := by
  intro t' h
  cases t with
  | atGetDocs p => simp [Task.step] at h; subst h; rfl
  | atCreateDoc p am => simp [Task.step] at h; subst h; rfl
  | atUpdateDoc am doc =>
    simp only [Task.step] at h
    cases hh : am.head? <;> simp [hh] at h

/-- With fuel for every remaining store call the event loop ends with an empty
queue. -/
theorem runTasks_done (c : Ctx) (fuel : Nat) (queue : List Task) (s : Store)
    (h : (queue.map Task.weight).sum ≤ fuel) : (runTasks c fuel queue s).1 = [] := by
  induction fuel generalizing queue s with
  | zero =>
    cases queue with
    | nil => rfl
    | cons t q =>
      have := task_weight_pos t
      simp at h
      omega
  | succ fuel ih =>
    cases queue with
    | nil => rfl
    | cons t q =>
      simp only [List.map_cons, List.sum_cons] at h
      unfold runTasks
      have hw := task_step_weight c t s
      have hp := task_weight_pos t
      rcases hstep : t.step c s with ⟨o, s'⟩
      rw [hstep] at hw
      cases o with
      | none => exact ih q s' (by omega)
      | some t' =>
        have := hw t' rfl
        apply ih
        simp only [List.map_append, List.sum_append, List.map_cons, List.map_nil, List.sum_cons,
          List.sum_nil]
        omega

/-- The fuel `postSubmitData` gives the event loop lets every callback end. -/
theorem postSubmitData_completes (c : Ctx) (req : Request) (s : Store) :
    (runTasks c (3 * req.documents.length) (req.documents.map Task.atGetDocs) s).1 = [] := by
  apply runTasks_done
  have : ∀ l : List DataPiece, ((l.map Task.atGetDocs).map Task.weight).sum = 3 * l.length := by
    intro l
    induction l with
    | nil => rfl
    | cons x xs ih => simp only [List.map_cons, List.sum_cons, ih, Task.weight, List.length_cons]; omega
  rw [this]

/-! ## The claims -/

/-- C1: on every permission-guarded route, for every store, token and body, when
the authorizer returns `false` for the route's permission the handler answers
401 with the message "Unauthorized" and the store is the one it started from. -/
theorem unauthorized_no_mutation (c : Ctx) (route : Route) (req : Request) (s : Store)
    (perm : String) (hperm : requiredPermission c route req = some perm)
    (hauth : c.authorize req.token perm c.env = false) :
    handle c route req s = .ok (Response.msg 401 "Unauthorized", s) := by
  cases route <;> simp only [requiredPermission, Option.some.injEq] at hperm
  case postDocument =>
    cases hd : req.dataType with
    | none => simp [hd] at hperm
    | some d =>
      simp only [hd, Option.map_some', Option.some.injEq] at hperm
      subst hperm
      simp [handle, postDocument, hd, hauth]
  all_goals
    subst hperm
    simp [handle, getMatches, postMatchDocument, deleteMatchDocument, postMatch, deleteMatch,
      deleteDocument, putDocument, hauth]

/-- Instance of `unauthorized_no_mutation`: `PUT /document` with a token that has
no permission. -/
theorem unauthorized_no_mutation_witness :
    requiredPermission (ctxGrant [] false) Route.putDocument (reqIds 1 2) = some "EDIT_ALL" ∧
    (ctxGrant [] false).authorize (reqIds 1 2).token "EDIT_ALL" (ctxGrant [] false).env = false ∧
    handle (ctxGrant [] false) Route.putDocument (reqIds 1 2) (storeTest [] "data")
      = .ok (Response.msg 401 "Unauthorized", storeTest [] "data") :=
  ⟨rfl, rfl,
   unauthorized_no_mutation (ctxGrant [] false) Route.putDocument (reqIds 1 2)
     (storeTest [] "data") "EDIT_ALL" rfl rfl⟩

/-- C2: for `POST /document` with the string `dataType` `d`, the permission asked
for is `"WRITE_"` followed by the upper-cased `d`: when the authorizer grants it
the answer is 200 and exactly one Document with `dataType` `d` as given and the
environment's `friendlyId` is added, when it refuses the answer is 401 and the
store is unchanged; so the answer is 200 exactly when that permission is
granted, and two `dataType` values with the same upper-casing are guarded
alike. -/
theorem postDocument_permission (c : Ctx) (req : Request) (s : Store) (d : String)
    (hd : req.dataType = some d) :
    (c.authorize req.token ("WRITE_" ++ c.toUpperCase d) c.env = true →
      postDocument c req s = .ok
        ({ status := 200, message := some "Document created!", sendBackMatches := none,
           unassignedDocuments := none,
           document := some { _id := s.nextId, environment := c.env.friendlyId, dataType := d,
                              json := req.json, image := req.image, datetime := c.now } },
         { s with documentColl := s.documentColl ++
                    [{ _id := s.nextId, environment := c.env.friendlyId, dataType := d,
                       json := req.json, image := req.image, datetime := c.now }],
                  nextId := s.nextId + 1 })) ∧
    (c.authorize req.token ("WRITE_" ++ c.toUpperCase d) c.env = false →
      postDocument c req s = .ok (Response.msg 401 "Unauthorized", s)) ∧
    (statusOf (postDocument c req s) = some 200 ↔
      c.authorize req.token ("WRITE_" ++ c.toUpperCase d) c.env = true) ∧
    (∀ (req' : Request) (s' : Store) (d' : String), req'.dataType = some d' →
      req'.token = req.token → c.toUpperCase d' = c.toUpperCase d →
      (statusOf (postDocument c req' s') = some 200 ↔ statusOf (postDocument c req s) = some 200)) := by
  have key : ∀ (r : Request) (t : Store) (e : String), r.dataType = some e →
      (statusOf (postDocument c r t) = some 200 ↔
        c.authorize r.token ("WRITE_" ++ c.toUpperCase e) c.env = true) := by
    intro r t e he
    cases ha : c.authorize r.token ("WRITE_" ++ c.toUpperCase e) c.env <;>
      simp [postDocument, he, ha, statusOf, createDocument, Response.msg]
  refine ⟨?_, ?_, key req s d hd, ?_⟩
  · intro ha
    simp [postDocument, hd, ha, createDocument]
  · intro ha
    simp [postDocument, hd, ha]
  · intro req' s' d' hd' htok hup
    rw [key req' s' d' hd', key req s d hd, htok, hup]

/-- Instance of `postDocument_permission`: with only `WRITE_MATCH` granted, the
data types `"match"` and `"MATCH"` are guarded alike, and `"match"` is
accepted. -/
theorem postDocument_permission_witness :
    (reqDoc "match").dataType = some "match" ∧
    (statusOf (postDocument (ctxGrant ["WRITE_MATCH"] false) (reqDoc "MATCH")
        (storeTest [] "data")) = some 200 ↔
      statusOf (postDocument (ctxGrant ["WRITE_MATCH"] false) (reqDoc "match")
        (storeTest [] "data")) = some 200) ∧
    statusOf (postDocument (ctxGrant ["WRITE_MATCH"] false) (reqDoc "match")
        (storeTest [] "data")) = some 200 :=
  ⟨rfl,
   (postDocument_permission (ctxGrant ["WRITE_MATCH"] false) (reqDoc "match")
      (storeTest [] "data") "match" rfl).2.2.2 (reqDoc "MATCH") (storeTest [] "data") "MATCH"
      rfl rfl (by decide),
   by decide⟩

/-- C3, as stated, fails: match 1 already lists document 2; the authorized
`POST /match/document` makes the list `[2, 2]`, the authorized
`DELETE /match/document` removes every occurrence, and the list ends empty
instead of `[2]` (whether the store patches one or all matching records). -/
theorem add_then_remove_counterexample :
    (storeTest [2] "data").matchColl.map (fun m => m.documents) = [[2]] ∧
    (postMatchDocument (ctxGrant ["ASSOCIATE"] false) (reqIds 1 2) (storeTest [2] "data")).1.status
      = 200 ∧
    (deleteMatchDocument (ctxGrant ["ASSOCIATE"] false) (reqIds 1 2)
      (postMatchDocument (ctxGrant ["ASSOCIATE"] false) (reqIds 1 2) (storeTest [2] "data")).2).1.status
      = 200 ∧
    (deleteMatchDocument (ctxGrant ["ASSOCIATE"] false) (reqIds 1 2)
      (postMatchDocument (ctxGrant ["ASSOCIATE"] false) (reqIds 1 2) (storeTest [2] "data")).2).2.matchColl.map
        (fun m => m.documents) = [[]] ∧
    (deleteMatchDocument (ctxGrant ["ASSOCIATE"] true) (reqIds 1 2)
      (postMatchDocument (ctxGrant ["ASSOCIATE"] true) (reqIds 1 2) (storeTest [2] "data")).2).2.matchColl.map
        (fun m => m.documents) = [[]] := by
  decide

/-- C3, amended: in a store whose match ids are distinct, for a Match of the
resolved environment with documents list `L` and a Document `d` of that
environment, an authorized `POST /match/document` followed by an authorized
`DELETE /match/document` with the same ids both answer 200 and leave the Match
with `L` without the occurrences of `d`, every other record unchanged; when `d`
does not occur in `L` the whole store is the original one. -/
theorem add_then_remove_document (c : Ctx) (req : Request) (s : Store) (m : Match)
    (hauth : c.authorize req.token "ASSOCIATE" c.env = true)
    (hn : (s.matchColl.map (fun m => m._id)).Nodup)
    (hm : m ∈ s.matchColl) (hk : m._id = req.matchId)
    (he : m.environment = c.env.friendlyId)
    (hd : ∃ d ∈ s.documentColl, d._id = req.docId ∧ d.environment = c.env.friendlyId) :
    (postMatchDocument c req s).1.status = 200 ∧
    (deleteMatchDocument c req (postMatchDocument c req s).2).1.status = 200 ∧
    (deleteMatchDocument c req (postMatchDocument c req s).2).2 =
      { s with matchColl := s.matchColl.map (fun x =>
          if x._id = req.matchId then
            { x with documents := x.documents.filter (fun doc => doc != req.docId) }
          else x) } ∧
    (req.docId ∉ m.documents →
      (deleteMatchDocument c req (postMatchDocument c req s).2).2 = s) := by
  have h1 := postMatchDocument_found c req s hauth hn ⟨m, hm, hk, he⟩ hd
  have hn1 : ((postMatchDocument c req s).2.matchColl.map (fun m => m._id)).Nodup := by
    rw [h1]
    simp only [List.map_map]
    have : ((fun m : Match => m._id) ∘ fun x =>
        if x._id = req.matchId then { x with documents := x.documents ++ [req.docId] } else x)
        = fun m => m._id := by
      funext x
      by_cases hx : x._id = req.matchId <;> simp [hx]
    rw [this]
    exact hn
  have hm1 : ∃ m' ∈ (postMatchDocument c req s).2.matchColl, m'._id = req.matchId := by
    rw [h1]
    exact ⟨_, List.mem_map_of_mem _ hm, by simp [hk]⟩
  have h2 := deleteMatchDocument_found c req _ hauth hn1 hm1
  have hfinal : (deleteMatchDocument c req (postMatchDocument c req s).2).2 =
      { s with matchColl := s.matchColl.map (fun x =>
          if x._id = req.matchId then
            { x with documents := x.documents.filter (fun doc => doc != req.docId) }
          else x) } := by
    rw [h2, h1]
    simp only [List.map_map]
    congr 1
    apply List.map_congr_left
    intro x _
    by_cases hx : x._id = req.matchId
    · simp [hx, List.filter_append]
    · simp [hx]
  refine ⟨by rw [h1]; rfl, by rw [h2]; rfl, hfinal, ?_⟩
  intro hnot
  rw [hfinal]
  have : s.matchColl.map (fun x =>
          if x._id = req.matchId then
            { x with documents := x.documents.filter (fun doc => doc != req.docId) }
          else x) = s.matchColl := by
    conv_rhs => rw [← List.map_id s.matchColl]
    apply List.map_congr_left
    intro x hx
    by_cases hxk : x._id = req.matchId
    · have hxm : x = m := eq_of_key_eq (fun m => m._id) s.matchColl hn hx hm (hxk.trans hk.symm)
      subst hxm
      have : x.documents.filter (fun doc => doc != req.docId) = x.documents := by
        rw [List.filter_eq_self]
        intro a ha
        simp only [bne_iff_ne, ne_eq]
        rintro rfl
        exact hnot ha
      rw [if_pos hxk, this]
      rfl
    · simp [hxk]
  rw [this]

/-- Instance of `add_then_remove_document`: document 2 is added to and removed
from match 1, whose list `[5]` does not contain it. -/
theorem add_then_remove_document_witness :
    (ctxGrant ["ASSOCIATE"] false).authorize (reqIds 1 2).token "ASSOCIATE"
      (ctxGrant ["ASSOCIATE"] false).env = true ∧
    ((storeTest [5] "data").matchColl.map (fun m => m._id)).Nodup ∧
    mkMatch 1 "test" 7 [5] ∈ (storeTest [5] "data").matchColl ∧
    (deleteMatchDocument (ctxGrant ["ASSOCIATE"] false) (reqIds 1 2)
      (postMatchDocument (ctxGrant ["ASSOCIATE"] false) (reqIds 1 2)
        (storeTest [5] "data")).2).2 = storeTest [5] "data" :=
  ⟨rfl, by decide, by decide,
   (add_then_remove_document (ctxGrant ["ASSOCIATE"] false) (reqIds 1 2) (storeTest [5] "data")
      (mkMatch 1 "test" 7 [5]) rfl (by decide) (by decide) rfl rfl
      ⟨mkDoc 2 "test" "data", by decide, rfl, rfl⟩).2.2.2 (by decide)⟩

/-- C4, the code at a failing input: two fragments name match 1 (`N = 2`,
`M = 2`).  All callbacks end, two Documents are created, but both callbacks read
the Match before either writes its list, so the second write replaces the
first: the Match ends with the one id `3`, not with two ids. -/
theorem postSubmitData_loses_association :
    (runTasks (ctxGrant [] false) 6 (reqTwoPieces.documents.map Task.atGetDocs) storeOneMatch).1 = [] ∧
    (postSubmitData (ctxGrant [] false) reqTwoPieces storeOneMatch).2 =
      { matchColl := [mkMatch 1 "test" 7 [3]],
        documentColl :=
          [{ _id := 2, environment := "test", dataType := "data", json := some "a",
             image := none, datetime := 5 },
           { _id := 3, environment := "test", dataType := "data", json := some "b",
             image := none, datetime := 6 }],
        schemaColl := [], nextId := 4 } ∧
    (postSubmitData (ctxGrant [] true) reqTwoPieces storeOneMatch).2 =
      (postSubmitData (ctxGrant [] false) reqTwoPieces storeOneMatch).2 := by
  decide

/-- C5: `POST /schema` with name `n` and data `d`.  When a Schema named `n`
exists, the records keep their number, ids and names, the first record named
`n` gets `Parts` `d` and `Updated` the request time, and the records with
another name are unchanged; when none exists, exactly the record
`(n, d, now)` is added at the end.  Matches and Documents are untouched. -/
theorem postSchema_upsert (c : Ctx) (req : Request) (s : Store) :
    ((∃ x ∈ s.schemaColl, x.Name = req.name) →
      (postSchema c req s).1 = Response.msg 200 "Schema updated!" ∧
      (postSchema c req s).2.schemaColl.length = s.schemaColl.length ∧
      (postSchema c req s).2.schemaColl.map (fun x => (x._id, x.Name)) =
        s.schemaColl.map (fun x => (x._id, x.Name)) ∧
      (postSchema c req s).2.schemaColl.find? (fun x => x.Name == req.name) =
        (s.schemaColl.find? (fun x => x.Name == req.name)).map
          (fun x => { x with Parts := req.data, Updated := c.now }) ∧
      (∃ x ∈ (postSchema c req s).2.schemaColl,
        x.Name = req.name ∧ x.Parts = req.data ∧ x.Updated = c.now) ∧
      (postSchema c req s).2.schemaColl.filter (fun x => !(x.Name == req.name)) =
        s.schemaColl.filter (fun x => !(x.Name == req.name))) ∧
    ((¬ ∃ x ∈ s.schemaColl, x.Name = req.name) →
      (postSchema c req s).1 = Response.msg 200 "Schema created!" ∧
      (postSchema c req s).2.schemaColl = s.schemaColl ++
        [{ _id := s.nextId, Name := req.name, Parts := req.data, Updated := c.now }]) ∧
    (postSchema c req s).2.matchColl = s.matchColl ∧
    (postSchema c req s).2.documentColl = s.documentColl := by
  by_cases hex : ∃ x ∈ s.schemaColl, x.Name = req.name
  · obtain ⟨x, hx, hxn⟩ := hex
    have hlen : (getDocs s.schemaColl (fun x => x.Name == req.name)).length > 0 := by
      apply List.length_pos_of_mem (a := x)
      simp [getDocs, hx, hxn]
    have hpost : postSchema c req s = (Response.msg 200 "Schema updated!",
        { s with schemaColl := updateDoc c.multi s.schemaColl (fun x => x.Name == req.name)
                                  (fun x => { x with Parts := req.data, Updated := c.now }) }) := by
      simp only [postSchema, hlen, if_true]
    rw [hpost]
    have hfind : (updateDoc c.multi s.schemaColl (fun x => x.Name == req.name)
        (fun x => { x with Parts := req.data, Updated := c.now })).find?
          (fun x => x.Name == req.name) =
        (s.schemaColl.find? (fun x => x.Name == req.name)).map
          (fun x => { x with Parts := req.data, Updated := c.now }) :=
      find?_updateDoc c.multi _ _ (by intro y hy; exact hy) _
    refine ⟨fun _ => ⟨rfl, ?_, ?_, hfind, ?_, ?_⟩, fun hne => absurd ⟨x, hx, hxn⟩ hne, rfl, rfl⟩
    · simp [updateDoc_length]
    · exact updateDoc_map_preserved c.multi _ _ _ (by intro y; rfl) _
    · cases hf : s.schemaColl.find? (fun x => x.Name == req.name) with
      | none =>
        rw [List.find?_eq_none] at hf
        exact absurd (by simp [hxn]) (hf x hx)
      | some y =>
        rw [hf] at hfind
        have hmem := List.mem_of_find?_eq_some hfind
        have hy := List.find?_some hf
        simp only [beq_iff_eq] at hy
        exact ⟨_, hmem, hy, rfl, rfl⟩
    · exact filter_not_updateDoc c.multi _ _ (by intro y hy; exact hy) _
  · have hlen : ¬ (getDocs s.schemaColl (fun x => x.Name == req.name)).length > 0 := by
      intro h
      obtain ⟨y, hy⟩ := List.exists_mem_of_length_pos h
      simp only [getDocs, List.mem_filter, beq_iff_eq] at hy
      exact hex ⟨y, hy⟩
    have hpost : postSchema c req s = (Response.msg 200 "Schema created!",
        { s with schemaColl := s.schemaColl ++
                    [{ _id := s.nextId, Name := req.name, Parts := req.data, Updated := c.now }],
                 nextId := s.nextId + 1 }) := by
      simp only [postSchema, hlen, if_false, createSchema]
    rw [hpost]
    exact ⟨fun h => absurd h hex, fun _ => ⟨rfl, rfl⟩, rfl, rfl⟩

/-- Instance of `postSchema_upsert`: the schema `"pit"` exists and is updated in
place. -/
theorem postSchema_upsert_witness :
    (∃ x ∈ storeSchema.schemaColl, x.Name = (reqSchema "pit" "new").name) ∧
    (postSchema (ctxGrant [] false) (reqSchema "pit" "new") storeSchema).2.schemaColl.length =
      storeSchema.schemaColl.length :=
  ⟨⟨_, List.mem_cons_self _ _, rfl⟩,
   ((postSchema_upsert (ctxGrant [] false) (reqSchema "pit" "new") storeSchema).1
      ⟨_, List.mem_cons_self _ _, rfl⟩).2.1⟩

/-- C6: an authorized `PUT /document` naming an existing Document `d` answers
200; afterwards the Document found under that id has the body's `image` if one
was supplied and `d.image` otherwise, likewise for `json`, `datetime` equal to
the request time, and the `dataType`, `environment` and `_id` of `d`; the
number of Documents, the Matches and the Schemas are unchanged. -/
theorem putDocument_spec (c : Ctx) (req : Request) (s : Store) (d : Document)
    (hauth : c.authorize req.token "EDIT_ALL" c.env = true)
    (hd : (getDocs s.documentColl (fun x => x._id == req.docId)).head? = some d) :
    (putDocument c req s).1 = Response.msg 200 "Document updated!" ∧
    (∃ d', (getDocs (putDocument c req s).2.documentColl (fun x => x._id == req.docId)).head?
        = some d' ∧
      (req.image = none → d'.image = d.image) ∧
      (∀ i, req.image = some i → d'.image = some i) ∧
      (req.json = none → d'.json = d.json) ∧
      (∀ j, req.json = some j → d'.json = some j) ∧
      d'.datetime = c.now ∧
      d'.dataType = d.dataType ∧
      d'.environment = d.environment ∧
      d'._id = d._id) ∧
    (putDocument c req s).2.documentColl.length = s.documentColl.length ∧
    (putDocument c req s).2.matchColl = s.matchColl ∧
    (putDocument c req s).2.schemaColl = s.schemaColl := by
  have hput : putDocument c req s = (Response.msg 200 "Document updated!",
      { s with documentColl := updateDoc c.multi s.documentColl (fun x => x._id == req.docId)
                                 (fun x => { x with
                                    image := if req.image == none then d.image else req.image,
                                    json := if req.json == none then d.json else req.json,
                                    datetime := c.now }) }) := by
    simp only [putDocument, hauth, hd]
    rfl
  rw [hput]
  refine ⟨rfl, ?_, by simp [updateDoc_length], rfl, rfl⟩
  rw [head?_getDocs] at hd
  refine ⟨{ d with image := if req.image == none then d.image else req.image,
                   json := if req.json == none then d.json else req.json,
                   datetime := c.now }, ?_, ?_⟩
  · rw [head?_getDocs]
    simp only
    rw [find?_updateDoc c.multi _ _ (by intro x hx; exact hx), hd]
    rfl
  · refine ⟨?_, ?_, ?_, ?_, rfl, rfl, rfl, rfl⟩
    · intro h; simp [h]
    · intro i h; simp [h]
    · intro h; simp [h]
    · intro j h; simp [h]

/-- Instance of `putDocument_spec`: document 2 gets a new `json` and keeps its
`image`. -/
theorem putDocument_spec_witness :
    (ctxGrant ["EDIT_ALL"] false).authorize (some "t") "EDIT_ALL"
      (ctxGrant ["EDIT_ALL"] false).env = true ∧
    (getDocs (storeTest [] "data").documentColl (fun x => x._id == 2)).head? =
      some (mkDoc 2 "test" "data") ∧
    (putDocument (ctxGrant ["EDIT_ALL"] false) { reqIds 0 2 with json := some "new" }
      (storeTest [] "data")).1 = Response.msg 200 "Document updated!" :=
  ⟨rfl, by decide,
   (putDocument_spec (ctxGrant ["EDIT_ALL"] false) { reqIds 0 2 with json := some "new" }
      (storeTest [] "data") (mkDoc 2 "test" "data") rfl (by decide)).1⟩

/-- C7: after an authorized `POST /match`, an authorized `GET /matches*` on the
resulting store answers 200 with a `matches` array that contains the entry with
the submitted `competition`, `matchNumber`, `teams` and `locked`, the
environment's `friendlyId`, the id the store gave the Match, and
`documents = []`. -/
theorem postMatch_then_getMatches (c : Ctx) (req req' : Request) (s : Store)
    (hw : c.authorize req.token "WRITE_ALL" c.env = true)
    (hr : c.authorize req'.token "READ_ALL" c.env = true) :
    (postMatch c req s).1 = Response.msg 200 "Match created!" ∧
    (getMatches c req' (postMatch c req s).2).1.status = 200 ∧
    ∃ ms, (getMatches c req' (postMatch c req s).2).1.sendBackMatches = some ms ∧
      ({ environment := c.env.friendlyId, competition := req.competition,
         matchNumber := req.matchNumber, teams := req.teams, locked := req.locked,
         documents := [], _id := s.nextId } : MatchData) ∈ ms := by
  refine ⟨by simp [postMatch, hw], by simp [getMatches, hr], ?_⟩
  simp only [getMatches, hr, postMatch, hw, createMatch]
  refine ⟨_, rfl, ?_⟩
  exact buildMatches_mem_of_no_documents _ _ []
    { _id := s.nextId, environment := c.env.friendlyId, competition := req.competition,
      matchNumber := req.matchNumber, teams := req.teams, locked := req.locked,
      documents := [], date := req.date }
    (by simp [getDocs]) rfl

/-- Instance of `postMatch_then_getMatches` with the permissions `WRITE_ALL` and
`READ_ALL` granted. -/
theorem postMatch_then_getMatches_witness :
    (ctxGrant ["WRITE_ALL", "READ_ALL"] false).authorize (reqIds 0 0).token "WRITE_ALL"
      (ctxGrant ["WRITE_ALL", "READ_ALL"] false).env = true ∧
    (ctxGrant ["WRITE_ALL", "READ_ALL"] false).authorize (reqIds 0 0).token "READ_ALL"
      (ctxGrant ["WRITE_ALL", "READ_ALL"] false).env = true ∧
    (getMatches (ctxGrant ["WRITE_ALL", "READ_ALL"] false) (reqIds 0 0)
      (postMatch (ctxGrant ["WRITE_ALL", "READ_ALL"] false) (reqIds 0 0)
        storeTwoRefs).2).1.status = 200 :=
  ⟨rfl, rfl,
   (postMatch_then_getMatches (ctxGrant ["WRITE_ALL", "READ_ALL"] false) (reqIds 0 0)
      (reqIds 0 0) storeTwoRefs rfl rfl).2.1⟩

/-- C8: an authorized `POST /match/document` answers 404 and leaves the store
unchanged unless both a Match with the given `matchId` and a Document with the
given `docId` exist in the resolved environment; when both exist (match ids
being distinct) it answers 200 and the store differs only in that Match, whose
`documents` list is the old one with `docId` appended at the end. -/
theorem postMatchDocument_spec (c : Ctx) (req : Request) (s : Store)
    (hauth : c.authorize req.token "ASSOCIATE" c.env = true) :
    (¬ ((∃ m ∈ s.matchColl, m._id = req.matchId ∧ m.environment = c.env.friendlyId) ∧
        (∃ d ∈ s.documentColl, d._id = req.docId ∧ d.environment = c.env.friendlyId)) →
      (postMatchDocument c req s).1.status = 404 ∧ (postMatchDocument c req s).2 = s) ∧
    ((∃ m ∈ s.matchColl, m._id = req.matchId ∧ m.environment = c.env.friendlyId) →
      (∃ d ∈ s.documentColl, d._id = req.docId ∧ d.environment = c.env.friendlyId) →
      (s.matchColl.map (fun m => m._id)).Nodup →
      (postMatchDocument c req s).1.status = 200 ∧
      (postMatchDocument c req s).2 =
        { s with matchColl := s.matchColl.map (fun x =>
            if x._id = req.matchId then { x with documents := x.documents ++ [req.docId] }
            else x) }) := by
  refine ⟨postMatchDocument_not_found c req s hauth, ?_⟩
  intro hm hd hn
  rw [postMatchDocument_found c req s hauth hn hm hd]
  exact ⟨rfl, rfl⟩

/-- Instance of `postMatchDocument_spec`: document 2 is appended to the list
`[5]` of match 1. -/
theorem postMatchDocument_spec_witness :
    (ctxGrant ["ASSOCIATE"] false).authorize (reqIds 1 2).token "ASSOCIATE"
      (ctxGrant ["ASSOCIATE"] false).env = true ∧
    (postMatchDocument (ctxGrant ["ASSOCIATE"] false) (reqIds 1 2) (storeTest [5] "data")).2 =
      storeTest [5, 2] "data" :=
  ⟨rfl,
   (((postMatchDocument_spec (ctxGrant ["ASSOCIATE"] false) (reqIds 1 2) (storeTest [5] "data")
      rfl).2 ⟨mkMatch 1 "test" 7 [5], by decide, rfl, rfl⟩
      ⟨mkDoc 2 "test" "data", by decide, rfl, rfl⟩ (by decide)).2).trans (by decide)⟩

/-- C9, the code at a failing input: match 1 references the fetched documents 2
and 3.  Splicing document 2 out of the array that `forEach` is iterating moves
document 3 to the index just visited, so it is never tested: the Match is
answered with document 2 only and document 3, although referenced, is listed in
`unassignedDocuments`. -/
theorem getMatches_skips_referenced_document :
    (getMatches (ctxGrant ["READ_ALL"] false) (reqIds 0 0) storeTwoRefs).1 =
      { status := 200, message := none,
        sendBackMatches := some
          [{ environment := "test", competition := some "c", matchNumber := some 7,
             teams := none, locked := some false,
             documents := [mkDoc 2 "test" "match"], _id := 1 }],
        unassignedDocuments := some [mkDoc 3 "test" "match"], document := none } ∧
    storeTwoRefs.matchColl.map (fun m => m.documents) = [[2, 3]] := by
  decide

/-- C10, the code at a failing input: the resolved environment is `"test"` and
every record belongs to `"other"`.  `DELETE /match/document`, `DELETE /match`,
`DELETE /document` and `PUT /document` look the record up by `_id` alone and
change or remove it (the removals under both readings of `deleteDoc`);
`POST /match/document`, which also filters by environment, answers 404 and
leaves the store unchanged. -/
theorem other_environment_records_modified :
    (ctxGrant ["ASSOCIATE", "DELETE_ALL", "EDIT_ALL"] false).env.friendlyId = "test" ∧
    storeOther.matchColl = [mkMatch 1 "other" 7 [2]] ∧
    storeOther.documentColl = [mkDoc 2 "other" "data"] ∧
    (deleteMatchDocument (ctxGrant ["ASSOCIATE", "DELETE_ALL", "EDIT_ALL"] false) (reqIds 1 2)
        storeOther).2.matchColl = [mkMatch 1 "other" 7 []] ∧
    (deleteMatch (ctxGrant ["ASSOCIATE", "DELETE_ALL", "EDIT_ALL"] false) (reqIds 1 2)
        storeOther).2.matchColl = [] ∧
    (deleteDocument (ctxGrant ["ASSOCIATE", "DELETE_ALL", "EDIT_ALL"] false) (reqIds 1 2)
        storeOther).2.documentColl = [] ∧
    (putDocument (ctxGrant ["ASSOCIATE", "DELETE_ALL", "EDIT_ALL"] false)
        { reqIds 1 2 with json := some "new" } storeOther).2.documentColl =
      [{ _id := 2, environment := "other", dataType := "data", json := some "new",
         image := none, datetime := 100 }] ∧
    (postMatchDocument (ctxGrant ["ASSOCIATE", "DELETE_ALL", "EDIT_ALL"] false) (reqIds 1 2)
        storeOther) = (Response.msg 404 "Match not found!", storeOther) ∧
    (deleteMatch (ctxGrant ["ASSOCIATE", "DELETE_ALL", "EDIT_ALL"] true) (reqIds 1 2)
        storeOther).2.matchColl = [] ∧
    (deleteDocument (ctxGrant ["ASSOCIATE", "DELETE_ALL", "EDIT_ALL"] true) (reqIds 1 2)
        storeOther).2.documentColl = [] := by
  decide

end StormCloud
